import Mathlib

/-
Verification development for the AI-response normalization layer of the
memoralink Chinese study tool (src/services/geminiService.ts).

JavaScript values are shallowly embedded as `JsVal`. JSON numbers are kept as
their source lexeme (no claim in this development depends on numeric values;
IEEE-754 behaviour such as exponent underflow is out of scope). JavaScript
exceptions (TypeError on property access of null/undefined, calling .trim on a
non-string, strict-mode assignment to a primitive) are modelled with `Except`;
code regions inside try/catch are modelled by matching on `Option`/`Except`
results, which is where the catch branches appear.
-/

inductive JsVal where
  | undefined
  | null
  | bool (b : Bool)
  | num (lexeme : String)
  | str (s : String)
  | arr (elems : List JsVal)
  | obj (fields : List (String × JsVal))
deriving Repr

inductive JsErr where
  | typeError (msg : String)
  | jsError (msg : String)
deriving Repr, DecidableEq

/-- JS truthiness of a number lexeme: a JSON number is falsy iff its value is
zero, i.e. every digit of the mantissa (integer and fraction part) is `0`.
(Floating-point underflow of extreme exponents is not modelled.) -/
def numTruthy (lexeme : String) : Bool :=
  let mantissa := lexeme.toList.takeWhile (fun c => c ≠ 'e' ∧ c ≠ 'E')
  mantissa.any (fun c => '1' ≤ c ∧ c ≤ '9')

/-- JS truthiness. -/
def truthy : JsVal → Bool
  | .undefined => false
  | .null => false
  | .bool b => b
  | .num l => numTruthy l
  | .str s => s ≠ ""
  | .arr _ => true
  | .obj _ => true

def JsVal.isArr : JsVal → Bool
  | .arr _ => true
  | _ => false

/-- Association-list lookup on object field lists (first match). -/
def lookupKV : List (String × JsVal) → String → Option JsVal
  | [], _ => none
  | (k, v) :: rest, key => if k = key then some v else lookupKV rest key

/-- JS property read `v.key` for a receiver already known not to be
null/undefined (objects yield the field or undefined; primitives have none of
the keys used by this code, hence undefined). -/
def jsProp (v : JsVal) (key : String) : JsVal :=
  match v with
  | .obj fields => (lookupKV fields key).getD .undefined
  | _ => .undefined

/-- JS property read `v.key`, raising TypeError on null/undefined receivers. -/
def jsPropE (v : JsVal) (key : String) : Except JsErr JsVal :=
  match v with
  | .null => .error (.typeError "cannot read properties of null")
  | .undefined => .error (.typeError "cannot read properties of undefined")
  | _ => .ok (jsProp v key)

/-- JS index read `v[0]`, raising TypeError on null/undefined receivers. -/
def jsIndex0E (v : JsVal) : Except JsErr JsVal :=
  match v with
  | .null => .error (.typeError "cannot read properties of null")
  | .undefined => .error (.typeError "cannot read properties of undefined")
  | .arr elems => .ok ((elems.get? 0).getD .undefined)
  | _ => .ok .undefined

/-- Set (or append) a key in an object field list, preserving insertion order
of the first occurrence. -/
def setKV (fields : List (String × JsVal)) (key : String) (v : JsVal) :
    List (String × JsVal) :=
  if fields.any (fun kv => kv.1 = key) then
    fields.map (fun kv => if kv.1 = key then (key, v) else kv)
  else fields ++ [(key, v)]

/-- Strict-mode JS property assignment `v.key = x` (TypeError on non-objects;
the source modules are ES modules, hence strict mode). -/
def jsSetFieldE (v : JsVal) (key : String) (x : JsVal) : Except JsErr JsVal :=
  match v with
  | .obj fields => .ok (.obj (setKV fields key x))
  | _ => .error (.typeError "cannot create property on primitive")

/-- Whitespace recognized by JS `String.prototype.trim` and `\s`
(ASCII whitespace, NBSP, line/paragraph separators, BOM). -/
def isJsWsChar (c : Char) : Bool :=
  c = ' ' ∨ c = '\t' ∨ c = '\n' ∨ c = '\r' ∨ c = '\x0b' ∨ c = '\x0c' ∨
  c = '\u00A0' ∨ c = '\u2028' ∨ c = '\u2029' ∨ c = '\uFEFF'

def jsTrimList (cs : List Char) : List Char :=
  ((cs.dropWhile isJsWsChar).reverse.dropWhile isJsWsChar).reverse

/-- JS `String.prototype.trim`. -/
def jsTrim (s : String) : String :=
  String.mk (jsTrimList s.toList)

/-
JSON.parse (ECMA-404 grammar). Parse failure is `none`; in the source it is a
thrown SyntaxError that the surrounding try/catch absorbs.
-/

def isJsonWs (c : Char) : Bool :=
  c = ' ' ∨ c = '\t' ∨ c = '\n' ∨ c = '\r'

def jskip (cs : List Char) : List Char := cs.dropWhile isJsonWs

def isDigitCh (c : Char) : Bool := '0' ≤ c ∧ c ≤ '9'

/-- Lex the integer part of a JSON number: `0` or a nonzero digit followed by
digits. Returns the digits and the rest. -/
def lexIntDigits (cs : List Char) : Option (List Char × List Char) :=
  match cs with
  | '0' :: rest => some (['0'], rest)
  | c :: rest =>
    if isDigitCh c then
      let ds := rest.takeWhile isDigitCh
      some (c :: ds, rest.drop ds.length)
    else none
  | [] => none

/-- Lex a JSON number (sign, integer part, optional fraction, optional
exponent); returns its lexeme. -/
def lexNumber (cs : List Char) : Option (String × List Char) :=
  let (sgn, cs1) : List Char × List Char :=
    match cs with
    | '-' :: rest => (['-'], rest)
    | _ => ([], cs)
  match lexIntDigits cs1 with
  | none => none
  | some (intDs, cs2) =>
    let (fracDs, cs3) : List Char × List Char :=
      match cs2 with
      | '.' :: rest =>
        let ds := rest.takeWhile isDigitCh
        if ds.isEmpty then ([], cs2) else ('.' :: ds, rest.drop ds.length)
      | _ => ([], cs2)
    -- a '.' not followed by a digit makes the whole parse fail in JSON;
    -- model: leave it unconsumed so the caller rejects the leftover
    match cs3 with
    | 'e' :: rest | 'E' :: rest =>
      let (esgn, rest1) : List Char × List Char :=
        match rest with
        | '+' :: r => (['+'], r)
        | '-' :: r => (['-'], r)
        | _ => ([], rest)
      let eds := rest1.takeWhile isDigitCh
      if eds.isEmpty then
        some (String.mk (sgn ++ intDs ++ fracDs), cs3)
      else
        some (String.mk (sgn ++ intDs ++ fracDs ++
          (cs3.head?.getD 'e') :: esgn ++ eds), rest1.drop eds.length)
    | _ => some (String.mk (sgn ++ intDs ++ fracDs), cs3)

def hexDigitVal (c : Char) : Option Nat :=
  if '0' ≤ c ∧ c ≤ '9' then some (c.toNat - '0'.toNat)
  else if 'a' ≤ c ∧ c ≤ 'f' then some (c.toNat - 'a'.toNat + 10)
  else if 'A' ≤ c ∧ c ≤ 'F' then some (c.toNat - 'A'.toNat + 10)
  else none

/-- Lex the body of a JSON string after the opening quote; returns the decoded
characters and the rest after the closing quote. Lone UTF-16 surrogates from
`\uXXXX` (not representable as Lean `Char`) decode to `(default : Char)`. -/
def lexStrAux : Nat → List Char → Option (List Char × List Char)
  | 0, _ => none
  | _, [] => none
  | fuel + 1, c :: rest =>
    if c = '"' then some ([], rest)
    else if c = '\\' then
      match rest with
      | [] => none
      | e :: rest1 =>
        if e = 'u' then
          match rest1 with
          | h1 :: h2 :: h3 :: h4 :: rest2 =>
            match hexDigitVal h1, hexDigitVal h2, hexDigitVal h3, hexDigitVal h4 with
            | some a, some b, some c2, some d =>
              let n := ((a * 16 + b) * 16 + c2) * 16 + d
              let ch : Char := Char.ofNat n
              (lexStrAux fuel rest2).map (fun p => (ch :: p.1, p.2))
            | _, _, _, _ => none
          | _ => none
        else
          let ech : Option Char :=
            if e = '"' then some '"'
            else if e = '\\' then some '\\'
            else if e = '/' then some '/'
            else if e = 'b' then some '\x08'
            else if e = 'f' then some '\x0c'
            else if e = 'n' then some '\n'
            else if e = 'r' then some '\r'
            else if e = 't' then some '\t'
            else none
          match ech with
          | some ch => (lexStrAux fuel rest1).map (fun p => (ch :: p.1, p.2))
          | none => none
    else if c.toNat < 0x20 then none
    else (lexStrAux fuel rest).map (fun p => (c :: p.1, p.2))

/-- Fold a parsed member list into a JS object field list: key insertion order
is the first occurrence, a duplicate key keeps the position but takes the last
value (JS `JSON.parse` semantics). -/
def dedupFields (ps : List (String × JsVal)) : List (String × JsVal) :=
  ps.foldl (fun acc kv => setKV acc kv.1 kv.2) []

mutual

def parseVal : Nat → List Char → Option (JsVal × List Char)
  | 0, _ => none
  | fuel + 1, cs0 =>
    let cs := jskip cs0
    match cs with
    | 'n' :: 'u' :: 'l' :: 'l' :: r => some (.null, r)
    | 't' :: 'r' :: 'u' :: 'e' :: r => some (.bool true, r)
    | 'f' :: 'a' :: 'l' :: 's' :: 'e' :: r => some (.bool false, r)
    | '"' :: r =>
      (lexStrAux (r.length + 1) r).map
        (fun p => (.str (String.mk p.1), p.2))
    | '[' :: r =>
      match jskip r with
      | ']' :: r2 => some (.arr [], r2)
      | _ =>
        (parseElems fuel r).map (fun p => (.arr p.1, p.2))
    | '\x7b' :: r =>
      match jskip r with
      | '\x7d' :: r2 => some (.obj [], r2)
      | _ =>
        (parseMembers fuel r).map (fun p => (.obj (dedupFields p.1), p.2))
    | _ => (lexNumber cs).map (fun p => (.num p.1, p.2))

def parseElems : Nat → List Char → Option (List JsVal × List Char)
  | 0, _ => none
  | fuel + 1, cs =>
    match parseVal fuel cs with
    | none => none
    | some (v, rest) =>
      match jskip rest with
      | ',' :: r2 =>
        (parseElems fuel r2).map (fun p => (v :: p.1, p.2))
      | ']' :: r2 => some ([v], r2)
      | _ => none

def parseMembers : Nat → List Char → Option (List (String × JsVal) × List Char)
  | 0, _ => none
  | fuel + 1, cs =>
    match jskip cs with
    | '"' :: r =>
      match lexStrAux (r.length + 1) r with
      | none => none
      | some (kcs, r1) =>
        match jskip r1 with
        | ':' :: r3 =>
          match parseVal fuel r3 with
          | none => none
          | some (v, r4) =>
            match jskip r4 with
            | ',' :: r6 =>
              (parseMembers fuel r6).map
                (fun p => ((String.mk kcs, v) :: p.1, p.2))
            | '\x7d' :: r6 => some ([(String.mk kcs, v)], r6)
            | _ => none
        | _ => none
    | _ => none

end

/-- `JSON.parse`: parse one value and require only whitespace after it. -/
def jsonParse (s : String) : Option JsVal :=
  let cs := s.toList
  match parseVal (2 * cs.length + 2) cs with
  | some (v, rest) => if (jskip rest).isEmpty then some v else none
  | none => none

/-
Response Parser (src/services/geminiService.ts, extractJsonArray and
extractJsonObject).
-/

/-- Match a literal at the head of a character list; returns the rest. -/
def matchLit : List Char → List Char → Option (List Char)
  | [], cs => some cs
  | l :: ls, c :: cs => if c = l then matchLit ls cs else none
  | _ :: _, [] => none

/-- Remove every occurrence of a (non-empty) pattern, scanning left to right
without overlap, as `String.prototype.replace` with a global regex and an
empty replacement does. Fuel is the text length; every removal consumes at
least one character. -/
def removeAllAux (pattern : List Char) : Nat → List Char → List Char
  | 0, cs => cs
  | _ + 1, [] => []
  | fuel + 1, c :: rest =>
    match matchLit pattern (c :: rest) with
    | some rest2 => removeAllAux pattern fuel rest2
    | none => c :: removeAllAux pattern fuel rest

def removeAll (pattern : String) (s : String) : String :=
  String.mk (removeAllAux pattern.toList (s.toList.length + 1) s.toList)

/-- `text.replace(/```json/g, '').replace(/```/g, '').trim()`. -/
def stripFences (text : String) : String :=
  jsTrim (removeAll "```" (removeAll "```json" text))

/-- First index of a character, `String.prototype.indexOf` (none for -1). -/
def idxOfCh (cs : List Char) (c : Char) : Option Nat :=
  cs.findIdx? (fun x => x = c)

/-- Last index of a character, `String.prototype.lastIndexOf`. -/
def lastIdxOfCh (cs : List Char) (c : Char) : Option Nat :=
  match (cs.reverse).findIdx? (fun x => x = c) with
  | some i => some (cs.length - 1 - i)
  | none => none

/-- `String.prototype.substring(a, b)`: clamps both arguments to the string
length and swaps them when `a > b`. -/
def jsSubstringChars (cs : List Char) (a b : Nat) : List Char :=
  let n := cs.length
  let a1 := min a n
  let b1 := min b n
  let lo := min a1 b1
  let hi := max a1 b1
  (cs.drop lo).take (hi - lo)

/-- The string handed to `JSON.parse` by the array parser: the cleaned text,
narrowed to `substring(indexOf '[', lastIndexOf ']' + 1)` when both brackets
occur. -/
def arrayNarrow (text : String) : String :=
  let clean := stripFences text
  let cs := clean.toList
  match idxOfCh cs '[', lastIdxOfCh cs ']' with
  | some a, some b => String.mk (jsSubstringChars cs a (b + 1))
  | _, _ => clean

/-- The string handed to `JSON.parse` by the object parser (narrowed to the
first `\x7b` … last `\x7d` span when both occur). -/
def objectNarrow (text : String) : String :=
  let clean := stripFences text
  let cs := clean.toList
  match idxOfCh cs '\x7b', lastIdxOfCh cs '\x7d' with
  | some a, some b => String.mk (jsSubstringChars cs a (b + 1))
  | _, _ => clean

/-- After the `[` of the regex `/\x7b\s*"items"\s*:\s*\[.*\]\s*\x7d/s`: the
greedy `.*` picks the largest position `q` such that `text[q] = ']'` is
followed by `\s*` and `\x7d`; returns the number of characters consumed from
just after the `[` through that `\x7d`. -/
def greedyCloseLen (r : List Char) : Option Nat :=
  (List.range r.length).reverse.find? (fun q =>
    match r.drop q with
    | ']' :: tail =>
      match tail.dropWhile isJsWsChar with
      | '\x7d' :: _ => true
      | _ => false
    | _ => false)
  |>.map (fun q =>
    let tail := r.drop (q + 1)
    q + 1 + (tail.takeWhile isJsWsChar).length + 1)

/-- Try the items regex at the head of `cs`; returns the number of characters
of the match. -/
def matchItemsAt (cs : List Char) : Option Nat :=
  match cs with
  | '\x7b' :: rest =>
    let w1 := (rest.takeWhile isJsWsChar).length
    let r1 := rest.drop w1
    match matchLit "\"items\"".toList r1 with
    | none => none
    | some r2 =>
      let w2 := (r2.takeWhile isJsWsChar).length
      match r2.drop w2 with
      | ':' :: r3 =>
        let w3 := (r3.takeWhile isJsWsChar).length
        match r3.drop w3 with
        | '[' :: r4 =>
          (greedyCloseLen r4).map (fun k =>
            1 + w1 + 7 + w2 + 1 + w3 + 1 + k)
        | _ => none
      | _ => none
  | _ => none

/-- Leftmost match of `/\x7b\s*"items"\s*:\s*\[.*\]\s*\x7d/s` over the text,
as in `text.match(...)`; returns the matched substring. -/
def regexScanItems : List Char → Option (List Char)
  | [] => none
  | c :: rest =>
    match matchItemsAt (c :: rest) with
    | some n => some ((c :: rest).take n)
    | none => regexScanItems rest

/-- The catch branch of `extractJsonArray`: regex recovery of an
`\x7b"items": [...]\x7d` fragment from the original text, else `[]`. A parse
failure of the matched fragment is absorbed by the inner empty catch. -/
def itemsRecovery (text : String) : JsVal :=
  match regexScanItems text.toList with
  | some m =>
    match jsonParse (String.mk m) with
    | some (.obj fs) => (lookupKV fs "items").getD .undefined
    | some _ => .undefined
    | none => .arr []
  | none => .arr []

/-- `extractJsonArray` (geminiService.ts lines 70-109). -/
def extractJsonArray (text : String) : JsVal :=
  match jsonParse (arrayNarrow text) with
  | some (.arr xs) => .arr xs
  | some (.obj fs) =>
    -- non-array, non-null object: first key (insertion order) holding an
    -- array, else wrap the object as a one-element array
    match fs.find? (fun kv => kv.2.isArr) with
    | some kv => kv.2
    | none => .arr [.obj fs]
  | some _ => .arr []
  | none => itemsRecovery text

/-- `extractJsonObject` (geminiService.ts lines 112-135). Note `typeof null`
is `'object'`, so a parse yielding `null` is returned as-is. -/
def extractJsonObject (text : String) : JsVal :=
  match jsonParse (objectNarrow text) with
  | some (.arr (x :: _)) => x
  | some (.arr []) => .obj []
  | some (.obj fs) => .obj fs
  | some .null => .null
  | some _ => .obj []
  | none => .obj []

/-
Item Sanitizer (geminiService.ts, sanitizeVocabularyItems, lines 31-67).
Property reads on a raw item throw only when the item itself is
null/undefined, so the per-field resolvers below are pure for other
receivers; the two `.trim()` call sites (definition, mnemonic) are the only
other throw sites and are modelled with `Except`.
-/

/-- The JS chain `item.k1 || item.k2 || ... || dflt` (first truthy wins). -/
def orChainP (item : JsVal) : List String → JsVal → JsVal
  | [], dflt => dflt
  | k :: ks, dflt =>
    let v := jsProp item k
    if truthy v then v else orChainP item ks dflt

/-- `item.word || item.term || item.character || item.zi || item.text ||
"未命名"`. -/
def resolveWordP (item : JsVal) : JsVal :=
  orChainP item ["word", "term", "character", "zi", "text"] (.str "未命名")

/-- The fallback chain for definition when the trim guard fails. -/
def definitionFallback (item : JsVal) : JsVal :=
  orChainP item ["meaning", "explanation", "chineseTranslation"]
    (.str "AI 未提供解釋")

/-- `(item.definition && item.definition.trim() !== "") ? item.definition :
(item.meaning || item.explanation || item.chineseTranslation ||
"AI 未提供解釋")`; `.trim()` on a truthy non-string throws. -/
def resolveDefinitionP (item : JsVal) : Except JsErr JsVal :=
  let dv := jsProp item "definition"
  if truthy dv then
    match dv with
    | .str s =>
      if jsTrim s ≠ "" then .ok dv else .ok (definitionFallback item)
    | _ => .error (.typeError "trim is not a function")
  else .ok (definitionFallback item)

/-- Example-sentence resolution: key chain, first element of an array value,
then the string-and-non-blank guard, else the placeholder. -/
def resolveExampleP (item : JsVal) : JsVal :=
  let raw0 := orChainP item
    ["exampleSentence", "example", "examples", "sentence", "usage"] (.str "")
  let raw1 : JsVal :=
    match raw0 with
    | .arr (x :: _) => x
    | .arr [] => .str ""
    | v => v
  match raw1 with
  | .str s => if jsTrim s ≠ "" then .str s else .str "暫無例句 (AI 未提供)"
  | _ => .str "暫無例句 (AI 未提供)"

/-- `(item.mnemonic && item.mnemonic.trim() !== "") ? item.mnemonic :
"暫無聯想記憶"`. -/
def resolveMnemonicP (item : JsVal) : Except JsErr JsVal :=
  let mv := jsProp item "mnemonic"
  if truthy mv then
    match mv with
    | .str s =>
      if jsTrim s ≠ "" then .ok mv else .ok (.str "暫無聯想記憶")
    | _ => .error (.typeError "trim is not a function")
  else .ok (.str "暫無聯想記憶")

def resolvePhoneticP (item : JsVal) : JsVal :=
  orChainP item ["phonetic", "jyutping", "pinyin"] (.str "")

def resolveChineseTranslationP (item : JsVal) : JsVal :=
  orChainP item ["chineseTranslation"] (.str "")

def resolveContextP (item : JsVal) : JsVal :=
  orChainP item ["context"] (.str "")

/-- `Array.isArray(item.tags) ? item.tags : []`. -/
def resolveTagsP (item : JsVal) : JsVal :=
  match jsProp item "tags" with
  | .arr xs => .arr xs
  | _ => .arr []

/-- One step of the sanitizer's `map` callback for a non-null, non-undefined
item. The returned object literal lists its keys in source order. -/
def sanitizeItemBody (item : JsVal) : Except JsErr JsVal :=
  match resolveDefinitionP item with
  | .error e => .error e
  | .ok definition =>
    match resolveMnemonicP item with
    | .error e => .error e
    | .ok mnemonic =>
      .ok (.obj
        [("word", resolveWordP item),
         ("definition", definition),
         ("phonetic", resolvePhoneticP item),
         ("chineseTranslation", resolveChineseTranslationP item),
         ("exampleSentence", resolveExampleP item),
         ("mnemonic", mnemonic),
         ("context", resolveContextP item),
         ("tags", resolveTagsP item),
         ("image", jsProp item "image")])

/-- One step of the sanitizer's `map` callback: the very first property read
throws on a null or undefined raw item; otherwise `sanitizeItemBody`. -/
def sanitizeItem (item : JsVal) : Except JsErr JsVal :=
  match item with
  | .null => .error (.typeError "cannot read properties of null")
  | .undefined => .error (.typeError "cannot read properties of undefined")
  | _ => sanitizeItemBody item

/-- `sanitizeVocabularyItems = items.map(...)`, with a thrown exception from
the callback aborting the whole map. -/
def sanitizeVocabularyItems : List JsVal → Except JsErr (List JsVal)
  | [] => .ok []
  | item :: rest =>
    match sanitizeItem item with
    | .error e => .error e
    | .ok v =>
      match sanitizeVocabularyItems rest with
      | .error e => .error e
      | .ok vs => .ok (v :: vs)

/-- A raw item is trim-safe when its `definition` and `mnemonic` values, if
truthy, are strings — exactly the condition under which the sanitizer's two
`.trim()` call sites cannot throw. -/
def trimSafe (item : JsVal) : Prop :=
  (truthy (jsProp item "definition") = true →
    ∃ s, jsProp item "definition" = JsVal.str s) ∧
  (truthy (jsProp item "mnemonic") = true →
    ∃ s, jsProp item "mnemonic" = JsVal.str s)

/-
Credential Resolver and chat-completions call (geminiService.ts lines 20-28,
137-155, 416-455). The two key sources (`window.*` runtime globals and
`process.env.*`) are the state; a `fetch` outcome is an oracle parameter.
-/

inductive AiProvider where
  | gemini
  | deepseek
deriving Repr, DecidableEq

structure JsEnv where
  windowDeepseekKey : JsVal
  envDeepseekKey : JsVal
  windowApiKey : JsVal
  envApiKey : JsVal

/-- `a || b`. -/
def jsOr (a b : JsVal) : JsVal := if truthy a then a else b

/-- `getApiKey` (lines 20-28): for deepseek,
`window.DEEPSEEK_API_KEY || process.env.DEEPSEEK_API_KEY`, throwing when the
result is falsy; for gemini, `window.API_KEY || process.env.API_KEY`
returned unchecked. -/
def getApiKey (env : JsEnv) : AiProvider → Except JsErr JsVal
  | .deepseek =>
    let key := jsOr env.windowDeepseekKey env.envDeepseekKey
    if truthy key then .ok key
    else .error (.jsError "DeepSeek API Key is missing.")
  | .gemini => .ok (jsOr env.windowApiKey env.envApiKey)

/-- Outcome of one `fetch` to the chat-completions endpoint: HTTP success
flag, status, and the decoded JSON body. -/
structure FetchOutcome where
  ok : Bool
  status : Nat
  data : JsVal

/-- `data.choices[0].message.content`. -/
def dsContent (data : JsVal) : Except JsErr JsVal :=
  match jsPropE data "choices" with
  | .error e => .error e
  | .ok choices =>
    match jsIndex0E choices with
    | .error e => .error e
    | .ok c0 =>
      match jsPropE c0 "message" with
      | .error e => .error e
      | .ok msg => jsPropE msg "content"

/-- `callDeepSeek` (lines 137-155). The Bool records whether the network call
was attempted (false exactly when the key lookup threw first). -/
def callDeepSeek (env : JsEnv) (fetch : FetchOutcome) :
    Bool × Except JsErr JsVal :=
  match getApiKey env .deepseek with
  | .error e => (false, .error e)
  | .ok _ =>
    if fetch.ok then (true, dsContent fetch.data)
    else (true, .error (.jsError
      ("DeepSeek API error: " ++ toString fetch.status)))

/-- One `sendMessage` turn of the deepseek `ChatSession` (lines 419-441):
returns the history after the turn and the result. The user message is pushed
before the key lookup and the fetch; the assistant message is pushed only
after a successful response. -/
def sendMessageDS (env : JsEnv) (fetch : FetchOutcome)
    (history : List (String × JsVal)) (msg : String) :
    List (String × JsVal) × Except JsErr JsVal :=
  let h1 := history ++ [("user", JsVal.str msg)]
  match getApiKey env .deepseek with
  | .error e => (h1, .error e)
  | .ok _ =>
    if fetch.ok then
      match dsContent fetch.data with
      | .error e => (h1, .error e)
      | .ok resText => (h1 ++ [("assistant", resText)], .ok resText)
    else (h1, .error (.jsError
      ("DeepSeek API error: " ++ toString fetch.status)))

/-
analyzeClassicalChinese response post-processing (lines 310-318 deepseek,
354-358 gemini). The network layer is abstracted to the raw response text.
-/

/-- Deepseek path: `extractJsonObject`, default a falsy `vocabulary` to `[]`,
then sanitize it when it is an array. -/
def analyzeClassicalDeepseekPost (resText : String) : Except JsErr JsVal :=
  let result := extractJsonObject resText
  match jsPropE result "vocabulary" with
  | .error e => .error e
  | .ok voc0 =>
    match (if truthy voc0 then .ok result
           else jsSetFieldE result "vocabulary" (.arr [])) with
    | .error e => .error e
    | .ok result1 =>
      match jsPropE result1 "vocabulary" with
      | .error e => .error e
      | .ok voc1 =>
        match voc1 with
        | .arr xs =>
          match sanitizeVocabularyItems xs with
          | .error e => .error e
          | .ok out => jsSetFieldE result1 "vocabulary" (.arr out)
        | _ => .ok result1

/-- The argument to `extractJsonObject` on the gemini path:
`response.text || "\x7b\x7d"` where `response.text` is string-or-undefined. -/
def geminiText (respText : Option String) : String :=
  match respText with
  | some s => if s = "" then "\x7b\x7d" else s
  | none => "\x7b\x7d"

/-- Gemini path: `extractJsonObject`, sanitize `vocabulary` only when it is
truthy and an array; no defaulting when absent. -/
def analyzeGeminiPost (respText : Option String) : Except JsErr JsVal :=
  let result := extractJsonObject (geminiText respText)
  match jsPropE result "vocabulary" with
  | .error e => .error e
  | .ok voc =>
    match voc with
    | .arr xs =>
      match sanitizeVocabularyItems xs with
      | .error e => .error e
      | .ok out => jsSetFieldE result "vocabulary" (.arr out)
    | _ => .ok result

/-
Helper lemmas.
-/

theorem truthy_ne_empty_str {v : JsVal} (h : truthy v = true) :
    v ≠ .str "" := by
  intro heq
  subst heq
  simp [truthy] at h

theorem ne_empty_of_jsTrim_ne {s : String} (h : jsTrim s ≠ "") : s ≠ "" := by
  intro heq
  subst heq
  exact h rfl

theorem orChainP_truthy (item : JsVal) (ks : List String) (d : JsVal)
    (hd : truthy d = true) : truthy (orChainP item ks d) = true := by
  induction ks with
  | nil => simpa [orChainP] using hd
  | cons k ks ih =>
    unfold orChainP
    by_cases h : truthy (jsProp item k) = true
    · simp [h]
    · simp only [Bool.not_eq_true] at h
      simp [h, ih]

theorem orChainP_cases (item : JsVal) (ks : List String) (d : JsVal) :
    truthy (orChainP item ks d) = true ∨ orChainP item ks d = d := by
  induction ks with
  | nil => right; rfl
  | cons k ks ih =>
    unfold orChainP
    by_cases h : truthy (jsProp item k) = true
    · left; simp [h]
    · simp only [Bool.not_eq_true] at h
      simpa [h] using ih

theorem orChainP_head_truthy (item : JsVal) (k : String) (ks : List String)
    (d : JsVal) (h : truthy (jsProp item k) = true) :
    orChainP item (k :: ks) d = jsProp item k := by
  simp [orChainP, h]

theorem orChainP_head_falsy (item : JsVal) (k : String) (ks : List String)
    (d : JsVal) (h : truthy (jsProp item k) = false) :
    orChainP item (k :: ks) d = orChainP item ks d := by
  simp [orChainP, h]

theorem resolveWordP_truthy (item : JsVal) :
    truthy (resolveWordP item) = true :=
  orChainP_truthy item _ _ (by decide)

theorem definitionFallback_truthy (item : JsVal) :
    truthy (definitionFallback item) = true :=
  orChainP_truthy item _ _ (by decide)

theorem resolveDefinitionP_ok_truthy {item d : JsVal}
    (h : resolveDefinitionP item = .ok d) : truthy d = true := by
  unfold resolveDefinitionP at h
  by_cases hv : truthy (jsProp item "definition") = true
  · rw [if_pos hv] at h
    cases hdv : jsProp item "definition" with
    | str s =>
      rw [hdv] at h hv
      have h2 : (if jsTrim s ≠ "" then Except.ok (JsVal.str s)
          else Except.ok (definitionFallback item)) = Except.ok d := h
      by_cases ht : jsTrim s ≠ ""
      · rw [if_pos ht] at h2
        cases h2
        exact hv
      · rw [if_neg ht] at h2
        cases h2
        exact definitionFallback_truthy item
    | undefined => rw [hdv] at h; cases h
    | null => rw [hdv] at h; cases h
    | bool b => rw [hdv] at h; cases h
    | num l => rw [hdv] at h; cases h
    | arr xs => rw [hdv] at h; cases h
    | obj fs => rw [hdv] at h; cases h
  · simp only [Bool.not_eq_true] at hv
    rw [if_neg (by simp [hv])] at h
    cases h
    exact definitionFallback_truthy item

theorem resolveExampleP_spec (item : JsVal) :
    ∃ s, resolveExampleP item = .str s ∧ jsTrim s ≠ "" := by
  unfold resolveExampleP
  set raw0 := orChainP item
    ["exampleSentence", "example", "examples", "sentence", "usage"]
    (.str "") with hraw0
  have placeholder : jsTrim "暫無例句 (AI 未提供)" ≠ "" := by decide
  cases raw0 with
  | arr xs =>
    cases xs with
    | nil => exact ⟨_, rfl, placeholder⟩
    | cons x tl =>
      cases x with
      | str s =>
        by_cases ht : jsTrim s ≠ ""
        · exact ⟨s, by simp [ht], ht⟩
        · exact ⟨_, by simp [ht], placeholder⟩
      | undefined => exact ⟨_, rfl, placeholder⟩
      | null => exact ⟨_, rfl, placeholder⟩
      | bool b => exact ⟨_, rfl, placeholder⟩
      | num l => exact ⟨_, rfl, placeholder⟩
      | arr ys => exact ⟨_, rfl, placeholder⟩
      | obj fs => exact ⟨_, rfl, placeholder⟩
  | str s =>
    by_cases ht : jsTrim s ≠ ""
    · exact ⟨s, by simp [ht], ht⟩
    · exact ⟨_, by simp [ht], placeholder⟩
  | undefined => exact ⟨_, rfl, placeholder⟩
  | null => exact ⟨_, rfl, placeholder⟩
  | bool b => exact ⟨_, rfl, placeholder⟩
  | num l => exact ⟨_, rfl, placeholder⟩
  | obj fs => exact ⟨_, rfl, placeholder⟩

theorem resolveMnemonicP_ok_spec {item m : JsVal}
    (h : resolveMnemonicP item = .ok m) :
    ∃ s, m = .str s ∧ jsTrim s ≠ "" := by
  unfold resolveMnemonicP at h
  have placeholder : jsTrim "暫無聯想記憶" ≠ "" := by decide
  by_cases hv : truthy (jsProp item "mnemonic") = true
  · rw [if_pos hv] at h
    cases hdv : jsProp item "mnemonic" with
    | str s =>
      rw [hdv] at h
      have h2 : (if jsTrim s ≠ "" then Except.ok (JsVal.str s)
          else Except.ok (JsVal.str "暫無聯想記憶")) = Except.ok m := h
      by_cases ht : jsTrim s ≠ ""
      · rw [if_pos ht] at h2
        cases h2
        exact ⟨s, rfl, ht⟩
      · rw [if_neg ht] at h2
        cases h2
        exact ⟨_, rfl, placeholder⟩
    | undefined => rw [hdv] at h; cases h
    | null => rw [hdv] at h; cases h
    | bool b => rw [hdv] at h; cases h
    | num l => rw [hdv] at h; cases h
    | arr xs => rw [hdv] at h; cases h
    | obj fs => rw [hdv] at h; cases h
  · simp only [Bool.not_eq_true] at hv
    rw [if_neg (by simp [hv])] at h
    cases h
    exact ⟨_, rfl, placeholder⟩

theorem resolveTagsP_arr (item : JsVal) :
    ∃ xs, resolveTagsP item = .arr xs := by
  unfold resolveTagsP
  cases jsProp item "tags" <;> exact ⟨_, rfl⟩

theorem sanitizeItem_eq_body {item v : JsVal}
    (h : sanitizeItem item = .ok v) : sanitizeItemBody item = .ok v := by
  cases item <;> first
    | exact h
    | (unfold sanitizeItem at h; cases h)

theorem sanitizeItemBody_shape {item v : JsVal}
    (h : sanitizeItemBody item = .ok v) :
    ∃ d m, resolveDefinitionP item = .ok d ∧ resolveMnemonicP item = .ok m ∧
      v = .obj
        [("word", resolveWordP item),
         ("definition", d),
         ("phonetic", resolvePhoneticP item),
         ("chineseTranslation", resolveChineseTranslationP item),
         ("exampleSentence", resolveExampleP item),
         ("mnemonic", m),
         ("context", resolveContextP item),
         ("tags", resolveTagsP item),
         ("image", jsProp item "image")] := by
  unfold sanitizeItemBody at h
  cases hd : resolveDefinitionP item with
  | error e => rw [hd] at h; cases h
  | ok d =>
    rw [hd] at h
    cases hm : resolveMnemonicP item with
    | error e => rw [hm] at h; cases h
    | ok m =>
      rw [hm] at h
      cases h
      exact ⟨d, m, rfl, rfl, rfl⟩

/-- Everything a successful sanitization run guarantees about one output
item, expressed through property reads of the output object. -/
theorem sanitizeItem_ok_fields {item v : JsVal}
    (h : sanitizeItem item = .ok v) :
    truthy (jsProp v "word") = true ∧
    truthy (jsProp v "definition") = true ∧
    (truthy (jsProp v "phonetic") = true ∨ jsProp v "phonetic" = .str "") ∧
    (truthy (jsProp v "chineseTranslation") = true ∨
      jsProp v "chineseTranslation" = .str "") ∧
    (∃ s, jsProp v "exampleSentence" = .str s ∧ jsTrim s ≠ "") ∧
    (∃ s, jsProp v "mnemonic" = .str s ∧ jsTrim s ≠ "") ∧
    (truthy (jsProp v "context") = true ∨ jsProp v "context" = .str "") ∧
    (∃ xs, jsProp v "tags" = .arr xs) := by
  obtain ⟨d, m, hd, hm, hv⟩ := sanitizeItemBody_shape (sanitizeItem_eq_body h)
  subst hv
  refine ⟨resolveWordP_truthy item, resolveDefinitionP_ok_truthy hd,
    orChainP_cases item _ _, orChainP_cases item _ _,
    resolveExampleP_spec item, resolveMnemonicP_ok_spec hm,
    orChainP_cases item _ _, resolveTagsP_arr item⟩

theorem lookupKV_append_of_not_mem {fs : List (String × JsVal)} {k : String}
    (h : fs.any (fun kv => kv.1 = k) = false) (v : JsVal) :
    lookupKV (fs ++ [(k, v)]) k = some v := by
  induction fs with
  | nil => simp [lookupKV]
  | cons kv rest ih =>
    simp only [List.any_cons, Bool.or_eq_false_iff] at h
    obtain ⟨h1, h2⟩ := h
    have hne : kv.1 ≠ k := by simpa using h1
    simpa [lookupKV, hne] using ih h2

theorem lookupKV_map_set {fs : List (String × JsVal)} {k : String}
    (h : fs.any (fun kv => kv.1 = k) = true) (v : JsVal) :
    lookupKV (fs.map (fun kv => if kv.1 = k then (k, v) else kv)) k =
      some v := by
  induction fs with
  | nil => simp at h
  | cons kv rest ih =>
    by_cases hk : kv.1 = k
    · rw [List.map_cons, if_pos hk]
      simp [lookupKV]
    · rw [List.map_cons, if_neg hk]
      simp only [List.any_cons, Bool.or_eq_true_iff] at h
      rcases h with h1 | h2
      · exact absurd (by simpa using h1) hk
      · simpa [lookupKV, hk] using ih h2

/-- After `setKV fields k v`, looking up `k` yields `v`. -/
theorem lookupKV_setKV (fs : List (String × JsVal)) (k : String) (v : JsVal) :
    lookupKV (setKV fs k v) k = some v := by
  unfold setKV
  by_cases h : fs.any (fun kv => kv.1 = k) = true
  · rw [if_pos h]
    exact lookupKV_map_set h v
  · simp only [Bool.not_eq_true] at h
    rw [if_neg (by simp [h])]
    exact lookupKV_append_of_not_mem h v

/-- Each member of a successful sanitizer output comes from a successful
per-item sanitization. -/
theorem sanitize_ok_mem {items out : List JsVal}
    (h : sanitizeVocabularyItems items = .ok out) :
    ∀ v ∈ out, ∃ item ∈ items, sanitizeItem item = .ok v := by
  induction items generalizing out with
  | nil =>
    unfold sanitizeVocabularyItems at h
    cases h
    intro v hv
    cases hv
  | cons item rest ih =>
    unfold sanitizeVocabularyItems at h
    cases hi : sanitizeItem item with
    | error e => rw [hi] at h; cases h
    | ok w =>
      rw [hi] at h
      cases hr : sanitizeVocabularyItems rest with
      | error e => rw [hr] at h; cases h
      | ok ws =>
        rw [hr] at h
        cases h
        intro v hv
        rcases List.mem_cons.1 hv with hv | hv
        · exact ⟨item, List.mem_cons_self .., hv ▸ hi⟩
        · obtain ⟨it, hit, hs⟩ := ih hr v hv
          exact ⟨it, List.mem_cons_of_mem _ hit, hs⟩

theorem resolveDefinitionP_isOk {item : JsVal}
    (h : truthy (jsProp item "definition") = true →
      ∃ s, jsProp item "definition" = JsVal.str s) :
    ∃ d, resolveDefinitionP item = .ok d := by
  unfold resolveDefinitionP
  by_cases hv : truthy (jsProp item "definition") = true
  · obtain ⟨s, hs⟩ := h hv
    rw [hs] at hv ⊢
    rw [if_pos hv]
    by_cases ht : jsTrim s ≠ ""
    · refine ⟨JsVal.str s, ?_⟩
      show (if jsTrim s ≠ "" then Except.ok (JsVal.str s)
        else Except.ok (definitionFallback item)) = Except.ok (JsVal.str s)
      rw [if_pos ht]
    · refine ⟨definitionFallback item, ?_⟩
      show (if jsTrim s ≠ "" then Except.ok (JsVal.str s)
        else Except.ok (definitionFallback item)) =
        Except.ok (definitionFallback item)
      rw [if_neg ht]
  · simp only [Bool.not_eq_true] at hv
    exact ⟨_, by rw [if_neg (by simp [hv])]⟩

theorem resolveMnemonicP_isOk {item : JsVal}
    (h : truthy (jsProp item "mnemonic") = true →
      ∃ s, jsProp item "mnemonic" = JsVal.str s) :
    ∃ m, resolveMnemonicP item = .ok m := by
  unfold resolveMnemonicP
  by_cases hv : truthy (jsProp item "mnemonic") = true
  · obtain ⟨s, hs⟩ := h hv
    rw [hs] at hv ⊢
    rw [if_pos hv]
    by_cases ht : jsTrim s ≠ ""
    · refine ⟨JsVal.str s, ?_⟩
      show (if jsTrim s ≠ "" then Except.ok (JsVal.str s)
        else Except.ok (JsVal.str "暫無聯想記憶")) = Except.ok (JsVal.str s)
      rw [if_pos ht]
    · refine ⟨JsVal.str "暫無聯想記憶", ?_⟩
      show (if jsTrim s ≠ "" then Except.ok (JsVal.str s)
        else Except.ok (JsVal.str "暫無聯想記憶")) =
        Except.ok (JsVal.str "暫無聯想記憶")
      rw [if_neg ht]
  · simp only [Bool.not_eq_true] at hv
    exact ⟨_, by rw [if_neg (by simp [hv])]⟩

theorem sanitizeItem_total {item : JsVal} (h1 : item ≠ .null)
    (h2 : item ≠ .undefined) (h3 : trimSafe item) :
    ∃ v, sanitizeItem item = .ok v := by
  obtain ⟨d, hd⟩ := resolveDefinitionP_isOk h3.1
  obtain ⟨m, hm⟩ := resolveMnemonicP_isOk h3.2
  have hbody : ∃ v, sanitizeItemBody item = .ok v := by
    unfold sanitizeItemBody
    rw [hd, hm]
    exact ⟨_, rfl⟩
  obtain ⟨v, hv⟩ := hbody
  refine ⟨v, ?_⟩
  cases item with
  | null => exact absurd rfl h1
  | undefined => exact absurd rfl h2
  | bool b => exact hv
  | num l => exact hv
  | str s => exact hv
  | arr xs => exact hv
  | obj fs => exact hv

theorem sanitize_total {items : List JsVal}
    (h : ∀ item ∈ items, item ≠ .null ∧ item ≠ .undefined ∧ trimSafe item) :
    ∃ out, sanitizeVocabularyItems items = .ok out := by
  induction items with
  | nil => exact ⟨[], rfl⟩
  | cons item rest ih =>
    obtain ⟨h1, h2, h3⟩ := h item (List.mem_cons_self ..)
    obtain ⟨v, hv⟩ := sanitizeItem_total h1 h2 h3
    obtain ⟨out, hout⟩ := ih (fun it hit => h it (List.mem_cons_of_mem _ hit))
    refine ⟨v :: out, ?_⟩
    unfold sanitizeVocabularyItems
    rw [hv, hout]

theorem sanitizeItem_fixedpoint
    (w d p c e m cx tg im : JsVal)
    (hw : truthy w = true)
    (hd : ∃ s, d = JsVal.str s ∧ jsTrim s ≠ "")
    (hp : truthy p = true ∨ p = JsVal.str "")
    (hc : truthy c = true ∨ c = JsVal.str "")
    (he : ∃ s, e = JsVal.str s ∧ jsTrim s ≠ "")
    (hm : ∃ s, m = JsVal.str s ∧ jsTrim s ≠ "")
    (hcx : truthy cx = true ∨ cx = JsVal.str "")
    (htg : ∃ xs, tg = JsVal.arr xs) :
    sanitizeItem (JsVal.obj [("word", w), ("definition", d), ("phonetic", p),
      ("chineseTranslation", c), ("exampleSentence", e), ("mnemonic", m),
      ("context", cx), ("tags", tg), ("image", im)]) =
    .ok (JsVal.obj [("word", w), ("definition", d), ("phonetic", p),
      ("chineseTranslation", c), ("exampleSentence", e), ("mnemonic", m),
      ("context", cx), ("tags", tg), ("image", im)]) := by
  set V : JsVal := JsVal.obj [("word", w), ("definition", d), ("phonetic", p),
    ("chineseTranslation", c), ("exampleSentence", e), ("mnemonic", m),
    ("context", cx), ("tags", tg), ("image", im)] with hV
  have pw : jsProp V "word" = w := rfl
  have pd : jsProp V "definition" = d := rfl
  have pp : jsProp V "phonetic" = p := rfl
  have pc : jsProp V "chineseTranslation" = c := rfl
  have pe : jsProp V "exampleSentence" = e := rfl
  have pm : jsProp V "mnemonic" = m := rfl
  have pcx : jsProp V "context" = cx := rfl
  have ptg : jsProp V "tags" = tg := rfl
  have pim : jsProp V "image" = im := rfl
  have pjy : jsProp V "jyutping" = JsVal.undefined := rfl
  have ppy : jsProp V "pinyin" = JsVal.undefined := rfl
  have hW : resolveWordP V = w := by
    unfold resolveWordP
    rw [orChainP_head_truthy _ _ _ _ (by rw [pw]; exact hw)]
    exact pw
  have hD : resolveDefinitionP V = .ok d := by
    obtain ⟨s, hs, ht⟩ := hd
    have pds : jsProp V "definition" = JsVal.str s := by rw [pd, hs]
    simp only [resolveDefinitionP]
    rw [pds]
    rw [if_pos (show truthy (JsVal.str s) = true by
      simp [truthy, ne_empty_of_jsTrim_ne ht])]
    show (if jsTrim s ≠ "" then Except.ok (JsVal.str s)
      else Except.ok (definitionFallback V)) = Except.ok d
    rw [if_pos ht, hs]
  have hM : resolveMnemonicP V = .ok m := by
    obtain ⟨s, hs, ht⟩ := hm
    have pms : jsProp V "mnemonic" = JsVal.str s := by rw [pm, hs]
    simp only [resolveMnemonicP]
    rw [pms]
    rw [if_pos (show truthy (JsVal.str s) = true by
      simp [truthy, ne_empty_of_jsTrim_ne ht])]
    show (if jsTrim s ≠ "" then Except.ok (JsVal.str s)
      else Except.ok (JsVal.str "暫無聯想記憶")) = Except.ok m
    rw [if_pos ht, hs]
  have hP : resolvePhoneticP V = p := by
    rcases hp with hp | hp
    · unfold resolvePhoneticP
      rw [orChainP_head_truthy _ _ _ _ (by rw [pp]; exact hp)]
      exact pp
    · unfold resolvePhoneticP
      rw [orChainP_head_falsy _ _ _ _ (by rw [pp, hp]; rfl)]
      rw [orChainP_head_falsy _ _ _ _ (by rw [pjy]; rfl)]
      rw [orChainP_head_falsy _ _ _ _ (by rw [ppy]; rfl)]
      rw [show orChainP V [] (JsVal.str "") = JsVal.str "" from rfl, hp]
  have hC : resolveChineseTranslationP V = c := by
    rcases hc with hc | hc
    · unfold resolveChineseTranslationP
      rw [orChainP_head_truthy _ _ _ _ (by rw [pc]; exact hc)]
      exact pc
    · unfold resolveChineseTranslationP
      rw [orChainP_head_falsy _ _ _ _ (by rw [pc, hc]; rfl)]
      rw [show orChainP V [] (JsVal.str "") = JsVal.str "" from rfl, hc]
  have hCx : resolveContextP V = cx := by
    rcases hcx with hcx | hcx
    · unfold resolveContextP
      rw [orChainP_head_truthy _ _ _ _ (by rw [pcx]; exact hcx)]
      exact pcx
    · unfold resolveContextP
      rw [orChainP_head_falsy _ _ _ _ (by rw [pcx, hcx]; rfl)]
      rw [show orChainP V [] (JsVal.str "") = JsVal.str "" from rfl, hcx]
  have hE : resolveExampleP V = e := by
    obtain ⟨s, hs, ht⟩ := he
    have pes : jsProp V "exampleSentence" = JsVal.str s := by rw [pe, hs]
    simp only [resolveExampleP]
    rw [orChainP_head_truthy _ _ _ _ (by
      rw [pes]; simp [truthy, ne_empty_of_jsTrim_ne ht])]
    rw [pes]
    show (if jsTrim s ≠ "" then JsVal.str s
      else JsVal.str "暫無例句 (AI 未提供)") = e
    rw [if_pos ht, hs]
  have hT : resolveTagsP V = tg := by
    obtain ⟨xs, hxs⟩ := htg
    have pts : jsProp V "tags" = JsVal.arr xs := by rw [ptg, hxs]
    simp only [resolveTagsP]
    rw [pts, hxs]
  show sanitizeItemBody V = .ok V
  simp only [sanitizeItemBody]
  rw [hD]
  show (match resolveMnemonicP V with
    | .error e => Except.error e
    | .ok mnemonic => Except.ok (JsVal.obj
        [("word", resolveWordP V),
         ("definition", d),
         ("phonetic", resolvePhoneticP V),
         ("chineseTranslation", resolveChineseTranslationP V),
         ("exampleSentence", resolveExampleP V),
         ("mnemonic", mnemonic),
         ("context", resolveContextP V),
         ("tags", resolveTagsP V),
         ("image", jsProp V "image")])) = .ok V
  rw [hM]
  show Except.ok (JsVal.obj
      [("word", resolveWordP V),
       ("definition", d),
       ("phonetic", resolvePhoneticP V),
       ("chineseTranslation", resolveChineseTranslationP V),
       ("exampleSentence", resolveExampleP V),
       ("mnemonic", m),
       ("context", resolveContextP V),
       ("tags", resolveTagsP V),
       ("image", jsProp V "image")]) = .ok V
  rw [hW, hP, hC, hE, hCx, hT, pim]

theorem resanitizeItem {item v : JsVal} (h : sanitizeItem item = .ok v)
    (hdef : ∃ s, jsProp v "definition" = JsVal.str s ∧ jsTrim s ≠ "") :
    sanitizeItem v = .ok v := by
  obtain ⟨d, m, hd, hm, hv⟩ := sanitizeItemBody_shape (sanitizeItem_eq_body h)
  subst hv
  exact sanitizeItem_fixedpoint _ _ _ _ _ _ _ _ _
    (resolveWordP_truthy item)
    hdef
    (orChainP_cases item _ _)
    (orChainP_cases item _ _)
    (resolveExampleP_spec item)
    (resolveMnemonicP_ok_spec hm)
    (orChainP_cases item _ _)
    (resolveTagsP_arr item)

theorem resanitize {items out : List JsVal}
    (h : sanitizeVocabularyItems items = .ok out)
    (hdef : ∀ v ∈ out,
      ∃ s, jsProp v "definition" = JsVal.str s ∧ jsTrim s ≠ "") :
    sanitizeVocabularyItems out = .ok out := by
  induction items generalizing out with
  | nil =>
    unfold sanitizeVocabularyItems at h
    cases h
    rfl
  | cons item rest ih =>
    unfold sanitizeVocabularyItems at h
    cases hi : sanitizeItem item with
    | error e => rw [hi] at h; cases h
    | ok v =>
      rw [hi] at h
      cases hr : sanitizeVocabularyItems rest with
      | error e => rw [hr] at h; cases h
      | ok vs =>
        rw [hr] at h
        cases h
        have h1 : sanitizeItem v = .ok v :=
          resanitizeItem hi (hdef v (List.mem_cons_self ..))
        have h2 : sanitizeVocabularyItems vs = .ok vs :=
          ih hr (fun u hu => hdef u (List.mem_cons_of_mem _ hu))
        unfold sanitizeVocabularyItems
        rw [h1, h2]

theorem resolveDefinitionP_preserve {item : JsVal} {s : String}
    (hs : jsProp item "definition" = JsVal.str s) (ht : jsTrim s ≠ "") :
    resolveDefinitionP item = .ok (JsVal.str s) := by
  simp only [resolveDefinitionP]
  rw [hs]
  rw [if_pos (show truthy (JsVal.str s) = true by
    simp [truthy, ne_empty_of_jsTrim_ne ht])]
  show (if jsTrim s ≠ "" then Except.ok (JsVal.str s)
    else Except.ok (definitionFallback item)) = Except.ok (JsVal.str s)
  rw [if_pos ht]

theorem resolveMnemonicP_preserve {item : JsVal} {s : String}
    (hs : jsProp item "mnemonic" = JsVal.str s) (ht : jsTrim s ≠ "") :
    resolveMnemonicP item = .ok (JsVal.str s) := by
  simp only [resolveMnemonicP]
  rw [hs]
  rw [if_pos (show truthy (JsVal.str s) = true by
    simp [truthy, ne_empty_of_jsTrim_ne ht])]
  show (if jsTrim s ≠ "" then Except.ok (JsVal.str s)
    else Except.ok (JsVal.str "暫無聯想記憶")) = Except.ok (JsVal.str s)
  rw [if_pos ht]

theorem resolveExampleP_preserve {item : JsVal} {s : String}
    (hs : jsProp item "exampleSentence" = JsVal.str s) (ht : jsTrim s ≠ "") :
    resolveExampleP item = JsVal.str s := by
  simp only [resolveExampleP]
  rw [orChainP_head_truthy _ _ _ _ (by
    rw [hs]; simp [truthy, ne_empty_of_jsTrim_ne ht])]
  rw [hs]
  show (if jsTrim s ≠ "" then JsVal.str s
    else JsVal.str "暫無例句 (AI 未提供)") = JsVal.str s
  rw [if_pos ht]

theorem resolveTagsP_preserve {item : JsVal} {xs : List JsVal}
    (hs : jsProp item "tags" = JsVal.arr xs) :
    resolveTagsP item = JsVal.arr xs := by
  simp only [resolveTagsP]
  rw [hs]

/-
Claim theorems.
-/

/-- C1: for every raw item sequence, every item in a (successful) output of
`sanitizeVocabularyItems` has a truthy (hence non-empty) `word` and
`definition`, a non-empty string `exampleSentence` and `mnemonic`, and a
`tags` field that is an array — never absent, null or undefined. -/
theorem claim_C1_sanitizer_invariant : ∀ items out,
    sanitizeVocabularyItems items = .ok out →
    ∀ v ∈ out,
      (truthy (jsProp v "word") = true ∧ jsProp v "word" ≠ JsVal.str "") ∧
      (truthy (jsProp v "definition") = true ∧
        jsProp v "definition" ≠ JsVal.str "") ∧
      (∃ s, jsProp v "exampleSentence" = JsVal.str s ∧ s ≠ "") ∧
      (∃ s, jsProp v "mnemonic" = JsVal.str s ∧ s ≠ "") ∧
      (∃ xs, jsProp v "tags" = JsVal.arr xs) := by
  intro items out h v hv
  obtain ⟨item, _, hitem⟩ := sanitize_ok_mem h v hv
  obtain ⟨hw, hd, _, _, he, hm, _, htg⟩ := sanitizeItem_ok_fields hitem
  refine ⟨⟨hw, truthy_ne_empty_str hw⟩, ⟨hd, truthy_ne_empty_str hd⟩,
    ?_, ?_, htg⟩
  · obtain ⟨s, hs, ht⟩ := he
    exact ⟨s, hs, ne_empty_of_jsTrim_ne ht⟩
  · obtain ⟨s, hs, ht⟩ := hm
    exact ⟨s, hs, ne_empty_of_jsTrim_ne ht⟩

/-- C1 witness: the invariant instantiated at the sanitization of the empty
mapping, whose output is computed concretely. -/
theorem claim_C1_sanitizer_invariant_witness :
    (truthy (jsProp (JsVal.obj
        [("word", JsVal.str "未命名"),
         ("definition", JsVal.str "AI 未提供解釋"),
         ("phonetic", JsVal.str ""),
         ("chineseTranslation", JsVal.str ""),
         ("exampleSentence", JsVal.str "暫無例句 (AI 未提供)"),
         ("mnemonic", JsVal.str "暫無聯想記憶"),
         ("context", JsVal.str ""),
         ("tags", JsVal.arr []),
         ("image", JsVal.undefined)]) "word") = true ∧
      jsProp (JsVal.obj
        [("word", JsVal.str "未命名"),
         ("definition", JsVal.str "AI 未提供解釋"),
         ("phonetic", JsVal.str ""),
         ("chineseTranslation", JsVal.str ""),
         ("exampleSentence", JsVal.str "暫無例句 (AI 未提供)"),
         ("mnemonic", JsVal.str "暫無聯想記憶"),
         ("context", JsVal.str ""),
         ("tags", JsVal.arr []),
         ("image", JsVal.undefined)]) "word" ≠ JsVal.str "") ∧
    (truthy (jsProp (JsVal.obj
        [("word", JsVal.str "未命名"),
         ("definition", JsVal.str "AI 未提供解釋"),
         ("phonetic", JsVal.str ""),
         ("chineseTranslation", JsVal.str ""),
         ("exampleSentence", JsVal.str "暫無例句 (AI 未提供)"),
         ("mnemonic", JsVal.str "暫無聯想記憶"),
         ("context", JsVal.str ""),
         ("tags", JsVal.arr []),
         ("image", JsVal.undefined)]) "definition") = true ∧
      jsProp (JsVal.obj
        [("word", JsVal.str "未命名"),
         ("definition", JsVal.str "AI 未提供解釋"),
         ("phonetic", JsVal.str ""),
         ("chineseTranslation", JsVal.str ""),
         ("exampleSentence", JsVal.str "暫無例句 (AI 未提供)"),
         ("mnemonic", JsVal.str "暫無聯想記憶"),
         ("context", JsVal.str ""),
         ("tags", JsVal.arr []),
         ("image", JsVal.undefined)]) "definition" ≠ JsVal.str "") ∧
    (∃ s, jsProp (JsVal.obj
        [("word", JsVal.str "未命名"),
         ("definition", JsVal.str "AI 未提供解釋"),
         ("phonetic", JsVal.str ""),
         ("chineseTranslation", JsVal.str ""),
         ("exampleSentence", JsVal.str "暫無例句 (AI 未提供)"),
         ("mnemonic", JsVal.str "暫無聯想記憶"),
         ("context", JsVal.str ""),
         ("tags", JsVal.arr []),
         ("image", JsVal.undefined)]) "exampleSentence" = JsVal.str s ∧
      s ≠ "") ∧
    (∃ s, jsProp (JsVal.obj
        [("word", JsVal.str "未命名"),
         ("definition", JsVal.str "AI 未提供解釋"),
         ("phonetic", JsVal.str ""),
         ("chineseTranslation", JsVal.str ""),
         ("exampleSentence", JsVal.str "暫無例句 (AI 未提供)"),
         ("mnemonic", JsVal.str "暫無聯想記憶"),
         ("context", JsVal.str ""),
         ("tags", JsVal.arr []),
         ("image", JsVal.undefined)]) "mnemonic" = JsVal.str s ∧ s ≠ "") ∧
    (∃ xs, jsProp (JsVal.obj
        [("word", JsVal.str "未命名"),
         ("definition", JsVal.str "AI 未提供解釋"),
         ("phonetic", JsVal.str ""),
         ("chineseTranslation", JsVal.str ""),
         ("exampleSentence", JsVal.str "暫無例句 (AI 未提供)"),
         ("mnemonic", JsVal.str "暫無聯想記憶"),
         ("context", JsVal.str ""),
         ("tags", JsVal.arr []),
         ("image", JsVal.undefined)]) "tags" = JsVal.arr xs) :=
  claim_C1_sanitizer_invariant [JsVal.obj []] _ rfl _
    (List.mem_singleton.2 rfl)

/-- C3: the sanitizer resolves fields by a first-truthy-wins fallback chain:
`term` supplies `word` when `word` is absent; `word` wins over `term` when
both are present; an array-valued example sentence contributes its first
element; an empty array falls back to the placeholder. -/
theorem claim_C3_fallback_order :
    (∀ s : String, s ≠ "" → ∃ v,
      sanitizeVocabularyItems [JsVal.obj [("term", JsVal.str s)]] =
        .ok [v] ∧ jsProp v "word" = JsVal.str s) ∧
    (∀ s t : String, s ≠ "" → ∃ v,
      sanitizeVocabularyItems
          [JsVal.obj [("word", JsVal.str s), ("term", JsVal.str t)]] =
        .ok [v] ∧ jsProp v "word" = JsVal.str s) ∧
    (∀ a b : String, jsTrim a ≠ "" → ∃ v,
      sanitizeVocabularyItems
          [JsVal.obj
            [("exampleSentence", JsVal.arr [JsVal.str a, JsVal.str b])]] =
        .ok [v] ∧ jsProp v "exampleSentence" = JsVal.str a) ∧
    (∃ v,
      sanitizeVocabularyItems
          [JsVal.obj [("exampleSentence", JsVal.arr [])]] = .ok [v] ∧
      jsProp v "exampleSentence" = JsVal.str "暫無例句 (AI 未提供)") := by
  refine ⟨?_, ?_, ?_, ⟨_, rfl, rfl⟩⟩
  · intro s h
    have htr : truthy (JsVal.str s) = true := by simp [truthy, h]
    have hword :
        resolveWordP (JsVal.obj [("term", JsVal.str s)]) = JsVal.str s := by
      unfold resolveWordP
      rw [orChainP_head_falsy (JsVal.obj [("term", JsVal.str s)]) "word"
        ["term", "character", "zi", "text"] (JsVal.str "未命名")
        (show truthy (jsProp (JsVal.obj [("term", JsVal.str s)]) "word") =
          false from rfl)]
      rw [orChainP_head_truthy (JsVal.obj [("term", JsVal.str s)]) "term"
        ["character", "zi", "text"] (JsVal.str "未命名")
        (show truthy (jsProp (JsVal.obj [("term", JsVal.str s)]) "term") =
          true from htr)]
      rfl
    have hsi : sanitizeItem (JsVal.obj [("term", JsVal.str s)]) =
        .ok (JsVal.obj
          [("word", JsVal.str s),
           ("definition", JsVal.str "AI 未提供解釋"),
           ("phonetic", JsVal.str ""),
           ("chineseTranslation", JsVal.str ""),
           ("exampleSentence", JsVal.str "暫無例句 (AI 未提供)"),
           ("mnemonic", JsVal.str "暫無聯想記憶"),
           ("context", JsVal.str ""),
           ("tags", JsVal.arr []),
           ("image", JsVal.undefined)]) := by
      have h0 : sanitizeItem (JsVal.obj [("term", JsVal.str s)]) =
          .ok (JsVal.obj
            [("word", resolveWordP (JsVal.obj [("term", JsVal.str s)])),
             ("definition", JsVal.str "AI 未提供解釋"),
             ("phonetic", JsVal.str ""),
             ("chineseTranslation", JsVal.str ""),
             ("exampleSentence", JsVal.str "暫無例句 (AI 未提供)"),
             ("mnemonic", JsVal.str "暫無聯想記憶"),
             ("context", JsVal.str ""),
             ("tags", JsVal.arr []),
             ("image", JsVal.undefined)]) := rfl
      rw [h0, hword]
    refine ⟨JsVal.obj
      [("word", JsVal.str s),
       ("definition", JsVal.str "AI 未提供解釋"),
       ("phonetic", JsVal.str ""),
       ("chineseTranslation", JsVal.str ""),
       ("exampleSentence", JsVal.str "暫無例句 (AI 未提供)"),
       ("mnemonic", JsVal.str "暫無聯想記憶"),
       ("context", JsVal.str ""),
       ("tags", JsVal.arr []),
       ("image", JsVal.undefined)], ?_, rfl⟩
    unfold sanitizeVocabularyItems
    rw [hsi]
    rfl
  · intro s t h
    have htr : truthy (JsVal.str s) = true := by simp [truthy, h]
    have hword :
        resolveWordP
          (JsVal.obj [("word", JsVal.str s), ("term", JsVal.str t)]) =
        JsVal.str s := by
      unfold resolveWordP
      rw [orChainP_head_truthy
        (JsVal.obj [("word", JsVal.str s), ("term", JsVal.str t)]) "word"
        ["term", "character", "zi", "text"] (JsVal.str "未命名")
        (show truthy (jsProp
          (JsVal.obj [("word", JsVal.str s), ("term", JsVal.str t)])
          "word") = true from htr)]
      rfl
    have hsi : sanitizeItem
        (JsVal.obj [("word", JsVal.str s), ("term", JsVal.str t)]) =
        .ok (JsVal.obj
          [("word", JsVal.str s),
           ("definition", JsVal.str "AI 未提供解釋"),
           ("phonetic", JsVal.str ""),
           ("chineseTranslation", JsVal.str ""),
           ("exampleSentence", JsVal.str "暫無例句 (AI 未提供)"),
           ("mnemonic", JsVal.str "暫無聯想記憶"),
           ("context", JsVal.str ""),
           ("tags", JsVal.arr []),
           ("image", JsVal.undefined)]) := by
      have h0 : sanitizeItem
          (JsVal.obj [("word", JsVal.str s), ("term", JsVal.str t)]) =
          .ok (JsVal.obj
            [("word", resolveWordP
                (JsVal.obj [("word", JsVal.str s), ("term", JsVal.str t)])),
             ("definition", JsVal.str "AI 未提供解釋"),
             ("phonetic", JsVal.str ""),
             ("chineseTranslation", JsVal.str ""),
             ("exampleSentence", JsVal.str "暫無例句 (AI 未提供)"),
             ("mnemonic", JsVal.str "暫無聯想記憶"),
             ("context", JsVal.str ""),
             ("tags", JsVal.arr []),
             ("image", JsVal.undefined)]) := rfl
      rw [h0, hword]
    refine ⟨JsVal.obj
      [("word", JsVal.str s),
       ("definition", JsVal.str "AI 未提供解釋"),
       ("phonetic", JsVal.str ""),
       ("chineseTranslation", JsVal.str ""),
       ("exampleSentence", JsVal.str "暫無例句 (AI 未提供)"),
       ("mnemonic", JsVal.str "暫無聯想記憶"),
       ("context", JsVal.str ""),
       ("tags", JsVal.arr []),
       ("image", JsVal.undefined)], ?_, rfl⟩
    unfold sanitizeVocabularyItems
    rw [hsi]
    rfl
  · intro a b ht
    have hex : resolveExampleP
        (JsVal.obj
          [("exampleSentence", JsVal.arr [JsVal.str a, JsVal.str b])]) =
        JsVal.str a := by
      simp only [resolveExampleP]
      rw [orChainP_head_truthy
        (JsVal.obj
          [("exampleSentence", JsVal.arr [JsVal.str a, JsVal.str b])])
        "exampleSentence" ["example", "examples", "sentence", "usage"]
        (JsVal.str "")
        (show truthy (jsProp
          (JsVal.obj
            [("exampleSentence", JsVal.arr [JsVal.str a, JsVal.str b])])
          "exampleSentence") = true from rfl)]
      show (if jsTrim a ≠ "" then JsVal.str a
        else JsVal.str "暫無例句 (AI 未提供)") = JsVal.str a
      rw [if_pos ht]
    have hsi : sanitizeItem
        (JsVal.obj
          [("exampleSentence", JsVal.arr [JsVal.str a, JsVal.str b])]) =
        .ok (JsVal.obj
          [("word", JsVal.str "未命名"),
           ("definition", JsVal.str "AI 未提供解釋"),
           ("phonetic", JsVal.str ""),
           ("chineseTranslation", JsVal.str ""),
           ("exampleSentence", JsVal.str a),
           ("mnemonic", JsVal.str "暫無聯想記憶"),
           ("context", JsVal.str ""),
           ("tags", JsVal.arr []),
           ("image", JsVal.undefined)]) := by
      have h0 : sanitizeItem
          (JsVal.obj
            [("exampleSentence", JsVal.arr [JsVal.str a, JsVal.str b])]) =
          .ok (JsVal.obj
            [("word", JsVal.str "未命名"),
             ("definition", JsVal.str "AI 未提供解釋"),
             ("phonetic", JsVal.str ""),
             ("chineseTranslation", JsVal.str ""),
             ("exampleSentence", resolveExampleP
                (JsVal.obj
                  [("exampleSentence",
                    JsVal.arr [JsVal.str a, JsVal.str b])])),
             ("mnemonic", JsVal.str "暫無聯想記憶"),
             ("context", JsVal.str ""),
             ("tags", JsVal.arr []),
             ("image", JsVal.undefined)]) := rfl
      rw [h0, hex]
    refine ⟨JsVal.obj
      [("word", JsVal.str "未命名"),
       ("definition", JsVal.str "AI 未提供解釋"),
       ("phonetic", JsVal.str ""),
       ("chineseTranslation", JsVal.str ""),
       ("exampleSentence", JsVal.str a),
       ("mnemonic", JsVal.str "暫無聯想記憶"),
       ("context", JsVal.str ""),
       ("tags", JsVal.arr []),
       ("image", JsVal.undefined)], ?_, rfl⟩
    unfold sanitizeVocabularyItems
    rw [hsi]
    rfl

/-- C3 witness: the fallback chains evaluated at the concrete inputs of the
claim. -/
theorem claim_C3_fallback_order_witness :
    (∃ v, sanitizeVocabularyItems [JsVal.obj [("term", JsVal.str "X")]] =
      .ok [v] ∧ jsProp v "word" = JsVal.str "X") ∧
    (∃ v, sanitizeVocabularyItems
        [JsVal.obj [("word", JsVal.str "W"), ("term", JsVal.str "T")]] =
      .ok [v] ∧ jsProp v "word" = JsVal.str "W") ∧
    (∃ v, sanitizeVocabularyItems
        [JsVal.obj
          [("exampleSentence", JsVal.arr [JsVal.str "a", JsVal.str "b"])]] =
      .ok [v] ∧ jsProp v "exampleSentence" = JsVal.str "a") :=
  ⟨claim_C3_fallback_order.1 "X" (by decide),
   claim_C3_fallback_order.2.1 "W" "T" (by decide),
   claim_C3_fallback_order.2.2.1 "a" "b" (by decide)⟩

/-- C4 counterexample: the sanitizer is not total over arbitrary JSON field
types — a truthy non-string `definition` (here `true`) makes
`item.definition.trim()` throw a TypeError, so the whole call fails. -/
theorem claim_C4_counterexample :
    sanitizeVocabularyItems [JsVal.obj [("definition", JsVal.bool true)]] =
      .error (.typeError "trim is not a function") := rfl

/-- C4 amended: the sanitizer succeeds on every sequence of non-null raw
items whose `definition` and `mnemonic` values are strings whenever truthy
(in particular on items with only string or absent fields); and it never
drops a well-formed field: truthy `word`/`phonetic`/`chineseTranslation`/
`context` values, string `definition`/`exampleSentence`/`mnemonic` values
with non-blank trim, and array `tags` values are all preserved, and `image`
is always passed through. -/
theorem claim_C4_totality_amended :
    (∀ items,
      (∀ item ∈ items, item ≠ JsVal.null ∧ item ≠ JsVal.undefined ∧
        trimSafe item) →
      ∃ out, sanitizeVocabularyItems items = .ok out) ∧
    (∀ item v, sanitizeItem item = .ok v →
      (truthy (jsProp item "word") = true →
        jsProp v "word" = jsProp item "word") ∧
      (∀ s, jsProp item "definition" = JsVal.str s → jsTrim s ≠ "" →
        jsProp v "definition" = JsVal.str s) ∧
      (truthy (jsProp item "phonetic") = true →
        jsProp v "phonetic" = jsProp item "phonetic") ∧
      (truthy (jsProp item "chineseTranslation") = true →
        jsProp v "chineseTranslation" = jsProp item "chineseTranslation") ∧
      (∀ s, jsProp item "exampleSentence" = JsVal.str s → jsTrim s ≠ "" →
        jsProp v "exampleSentence" = JsVal.str s) ∧
      (∀ s, jsProp item "mnemonic" = JsVal.str s → jsTrim s ≠ "" →
        jsProp v "mnemonic" = JsVal.str s) ∧
      (truthy (jsProp item "context") = true →
        jsProp v "context" = jsProp item "context") ∧
      (∀ xs, jsProp item "tags" = JsVal.arr xs →
        jsProp v "tags" = JsVal.arr xs) ∧
      jsProp v "image" = jsProp item "image") := by
  refine ⟨fun items h => sanitize_total h, ?_⟩
  intro item v h
  obtain ⟨d, m, hd, hm, hv⟩ := sanitizeItemBody_shape (sanitizeItem_eq_body h)
  subst hv
  refine ⟨?_, ?_, ?_, ?_, ?_, ?_, ?_, ?_, rfl⟩
  · intro hw
    show resolveWordP item = jsProp item "word"
    unfold resolveWordP
    rw [orChainP_head_truthy item "word" ["term", "character", "zi", "text"]
      (JsVal.str "未命名") hw]
  · intro s hs ht
    have h2 : resolveDefinitionP item = .ok (JsVal.str s) :=
      resolveDefinitionP_preserve hs ht
    rw [hd] at h2
    show d = JsVal.str s
    exact Except.ok.inj h2
  · intro hp
    show resolvePhoneticP item = jsProp item "phonetic"
    unfold resolvePhoneticP
    rw [orChainP_head_truthy item "phonetic" ["jyutping", "pinyin"]
      (JsVal.str "") hp]
  · intro hc
    show resolveChineseTranslationP item = jsProp item "chineseTranslation"
    unfold resolveChineseTranslationP
    rw [orChainP_head_truthy item "chineseTranslation" [] (JsVal.str "") hc]
  · intro s hs ht
    show resolveExampleP item = JsVal.str s
    exact resolveExampleP_preserve hs ht
  · intro s hs ht
    have h2 : resolveMnemonicP item = .ok (JsVal.str s) :=
      resolveMnemonicP_preserve hs ht
    rw [hm] at h2
    show m = JsVal.str s
    exact Except.ok.inj h2
  · intro hcx
    show resolveContextP item = jsProp item "context"
    unfold resolveContextP
    rw [orChainP_head_truthy item "context" [] (JsVal.str "") hcx]
  · intro xs hxs
    show resolveTagsP item = JsVal.arr xs
    exact resolveTagsP_preserve hxs

/-- C4 witness: totality applied to the empty mapping, and word preservation
applied to a concrete raw item with a string word. -/
theorem claim_C4_totality_amended_witness :
    (∃ out, sanitizeVocabularyItems [JsVal.obj []] = .ok out) ∧
    jsProp (JsVal.obj
      [("word", JsVal.str "w"),
       ("definition", JsVal.str "AI 未提供解釋"),
       ("phonetic", JsVal.str ""),
       ("chineseTranslation", JsVal.str ""),
       ("exampleSentence", JsVal.str "暫無例句 (AI 未提供)"),
       ("mnemonic", JsVal.str "暫無聯想記憶"),
       ("context", JsVal.str ""),
       ("tags", JsVal.arr []),
       ("image", JsVal.undefined)]) "word" =
      jsProp (JsVal.obj [("word", JsVal.str "w")]) "word" := by
  constructor
  · apply claim_C4_totality_amended.1 [JsVal.obj []]
    intro item hit
    rw [List.mem_singleton] at hit
    subst hit
    refine ⟨?_, ?_, ?_⟩
    · intro h
      cases h
    · intro h
      cases h
    · constructor
      · intro h
        exact absurd h (by decide)
      · intro h
        exact absurd h (by decide)
  · exact (claim_C4_totality_amended.2 (JsVal.obj [("word", JsVal.str "w")])
      _ rfl).1 rfl

/-- C9 counterexample: sanitization is not idempotent — the raw item
`\x7bmeaning: " ", chineseTranslation: "C"\x7d` sanitizes to an item whose
`definition` is the blank-trim string `" "`; re-sanitizing that output
replaces the definition by `"C"` (the `chineseTranslation` fallback), so the
output changes. -/
theorem claim_C9_counterexample :
    sanitizeVocabularyItems
        [JsVal.obj
          [("meaning", JsVal.str " "), ("chineseTranslation", JsVal.str "C")]] =
      .ok [JsVal.obj
        [("word", JsVal.str "未命名"),
         ("definition", JsVal.str " "),
         ("phonetic", JsVal.str ""),
         ("chineseTranslation", JsVal.str "C"),
         ("exampleSentence", JsVal.str "暫無例句 (AI 未提供)"),
         ("mnemonic", JsVal.str "暫無聯想記憶"),
         ("context", JsVal.str ""),
         ("tags", JsVal.arr []),
         ("image", JsVal.undefined)]] ∧
    sanitizeVocabularyItems
        [JsVal.obj
          [("word", JsVal.str "未命名"),
           ("definition", JsVal.str " "),
           ("phonetic", JsVal.str ""),
           ("chineseTranslation", JsVal.str "C"),
           ("exampleSentence", JsVal.str "暫無例句 (AI 未提供)"),
           ("mnemonic", JsVal.str "暫無聯想記憶"),
           ("context", JsVal.str ""),
           ("tags", JsVal.arr []),
           ("image", JsVal.undefined)]] =
      .ok [JsVal.obj
        [("word", JsVal.str "未命名"),
         ("definition", JsVal.str "C"),
         ("phonetic", JsVal.str ""),
         ("chineseTranslation", JsVal.str "C"),
         ("exampleSentence", JsVal.str "暫無例句 (AI 未提供)"),
         ("mnemonic", JsVal.str "暫無聯想記憶"),
         ("context", JsVal.str ""),
         ("tags", JsVal.arr []),
         ("image", JsVal.undefined)]] ∧
    (" " : String) ≠ "C" := ⟨rfl, rfl, by decide⟩

/-- C9 amended: sanitization is idempotent on any of its own outputs whose
`definition` is a string with non-blank trim (the counterexample shows the
restriction is necessary: a blank-trim or non-string definition produced by
the `meaning`/`explanation`/`chineseTranslation` fallback chain can change on
a second pass). -/
theorem claim_C9_idempotent_amended : ∀ items out,
    sanitizeVocabularyItems items = .ok out →
    (∀ v ∈ out,
      ∃ s, jsProp v "definition" = JsVal.str s ∧ jsTrim s ≠ "") →
    sanitizeVocabularyItems out = .ok out :=
  fun _ _ h hdef => resanitize h hdef

/-- C9 witness: idempotence applied to the sanitization of the empty
mapping. -/
theorem claim_C9_idempotent_amended_witness :
    sanitizeVocabularyItems
        [JsVal.obj
          [("word", JsVal.str "未命名"),
           ("definition", JsVal.str "AI 未提供解釋"),
           ("phonetic", JsVal.str ""),
           ("chineseTranslation", JsVal.str ""),
           ("exampleSentence", JsVal.str "暫無例句 (AI 未提供)"),
           ("mnemonic", JsVal.str "暫無聯想記憶"),
           ("context", JsVal.str ""),
           ("tags", JsVal.arr []),
           ("image", JsVal.undefined)]] =
      .ok [JsVal.obj
        [("word", JsVal.str "未命名"),
         ("definition", JsVal.str "AI 未提供解釋"),
         ("phonetic", JsVal.str ""),
         ("chineseTranslation", JsVal.str ""),
         ("exampleSentence", JsVal.str "暫無例句 (AI 未提供)"),
         ("mnemonic", JsVal.str "暫無聯想記憶"),
         ("context", JsVal.str ""),
         ("tags", JsVal.arr []),
         ("image", JsVal.undefined)]] := by
  apply claim_C9_idempotent_amended [JsVal.obj []] _ rfl
  intro v hv
  rw [List.mem_singleton] at hv
  subst hv
  exact ⟨"AI 未提供解釋", rfl, by decide⟩

/-- C2: both extractors are total functions of the text (all JS throw sites
are inside try/catch, modelled by `Option`): when `JSON.parse` fails on the
narrowed text, `extractJsonArray` runs the `\x7b"items": [...]\x7d` regex
recovery and yields `[]` when that also fails, and `extractJsonObject`
yields `\x7b\x7d`; at the concrete non-JSON input both return their safe
empty value. -/
theorem claim_C2_parser_error_handling :
    (∀ text, jsonParse (arrayNarrow text) = none →
      extractJsonArray text = itemsRecovery text) ∧
    (∀ text, jsonParse (arrayNarrow text) = none →
      regexScanItems text.toList = none →
      extractJsonArray text = JsVal.arr []) ∧
    (∀ text, jsonParse (objectNarrow text) = none →
      extractJsonObject text = JsVal.obj []) ∧
    extractJsonArray "not json at all" = JsVal.arr [] ∧
    extractJsonObject "not json at all" = JsVal.obj [] := by
  refine ⟨?_, ?_, ?_, rfl, rfl⟩
  · intro text h
    unfold extractJsonArray
    rw [h]
  · intro text h h2
    unfold extractJsonArray
    rw [h]
    unfold itemsRecovery
    rw [h2]
  · intro text h
    unfold extractJsonObject
    rw [h]

/-- C2 witness: the failure behaviour instantiated at the concrete
non-JSON input `"not json at all"`. -/
theorem claim_C2_parser_error_handling_witness :
    extractJsonArray "not json at all" =
      itemsRecovery "not json at all" ∧
    extractJsonArray "not json at all" = JsVal.arr [] ∧
    extractJsonObject "not json at all" = JsVal.obj [] :=
  ⟨claim_C2_parser_error_handling.1 "not json at all" rfl,
   claim_C2_parser_error_handling.2.1 "not json at all" rfl rfl,
   claim_C2_parser_error_handling.2.2.1 "not json at all" rfl⟩

/-- C5: when the array parser's JSON parse yields a non-array object, the
result is the value of the first key (in insertion order) whose value is an
array, and the whole object wrapped as a one-element sequence when no key
holds an array; the wrapper input `\x7b"items":[\x7b"word":"x"\x7d]\x7d`
parses to `[\x7b"word":"x"\x7d]`. -/
theorem claim_C5_object_wrapper_unwrap :
    (∀ text fs, jsonParse (arrayNarrow text) = some (JsVal.obj fs) →
      extractJsonArray text =
        (match fs.find? (fun kv => kv.2.isArr) with
         | some kv => kv.2
         | none => JsVal.arr [JsVal.obj fs])) ∧
    extractJsonArray "\x7b\"items\":[\x7b\"word\":\"x\"\x7d]\x7d" =
      JsVal.arr [JsVal.obj [("word", JsVal.str "x")]] := by
  refine ⟨?_, rfl⟩
  intro text fs h
  unfold extractJsonArray
  rw [h]

/-- C5 witness: the wrap case at the bracketless object `\x7b"a":1\x7d`. -/
theorem claim_C5_object_wrapper_unwrap_witness :
    extractJsonArray "\x7b\"a\":1\x7d" =
      JsVal.arr [JsVal.obj [("a", JsVal.num "1")]] :=
  claim_C5_object_wrapper_unwrap.1 "\x7b\"a\":1\x7d"
    [("a", JsVal.num "1")] rfl

/-- C6: when the object parser's JSON parse yields an array, the result is
its first element, and the empty object for the empty array; concretely
`[\x7b"translation":"t"\x7d]` parses to `\x7b"translation":"t"\x7d` and `[]`
parses to `\x7b\x7d`. -/
theorem claim_C6_array_wrapper_unwrap :
    (∀ text xs, jsonParse (objectNarrow text) = some (JsVal.arr xs) →
      extractJsonObject text =
        (match xs with
         | x :: _ => x
         | [] => JsVal.obj [])) ∧
    extractJsonObject "[\x7b\"translation\":\"t\"\x7d]" =
      JsVal.obj [("translation", JsVal.str "t")] ∧
    extractJsonObject "[]" = JsVal.obj [] := by
  refine ⟨?_, rfl, rfl⟩
  intro text xs h
  unfold extractJsonObject
  rw [h]
  cases xs <;> rfl

/-- C6 witness: the first-element case at the braceless array `[1,2]`. -/
theorem claim_C6_array_wrapper_unwrap_witness :
    extractJsonObject "[1,2]" = JsVal.num "1" :=
  claim_C6_array_wrapper_unwrap.1 "[1,2]"
    [JsVal.num "1", JsVal.num "2"] rfl

/-- C7 counterexample: on the gemini path of `analyzeClassicalChinese`, an
absent `vocabulary` is NOT defaulted to the empty sequence — the parsed
object is returned unchanged, with `vocabulary` undefined and hence not a
sequence. -/
theorem claim_C7_counterexample :
    analyzeGeminiPost (some "\x7b\"translation\":\"t\"\x7d") =
      .ok (JsVal.obj [("translation", JsVal.str "t")]) ∧
    jsProp (JsVal.obj [("translation", JsVal.str "t")]) "vocabulary" =
      JsVal.undefined ∧
    JsVal.undefined.isArr = false := ⟨rfl, rfl, rfl⟩

/-- C7 amended: on the deepseek path a falsy `vocabulary` is defaulted to
`[]` and an array `vocabulary` is replaced by its sanitization, so the
returned vocabulary is an array in those cases; on the gemini path an array
`vocabulary` is sanitized but anything else — in particular an absent one —
is left untouched. -/
theorem claim_C7_vocabulary_amended :
    (∀ resText fs, extractJsonObject resText = JsVal.obj fs →
      truthy ((lookupKV fs "vocabulary").getD JsVal.undefined) = false →
      ∃ fs2, analyzeClassicalDeepseekPost resText = .ok (JsVal.obj fs2) ∧
        lookupKV fs2 "vocabulary" = some (JsVal.arr [])) ∧
    (∀ resText fs xs out, extractJsonObject resText = JsVal.obj fs →
      (lookupKV fs "vocabulary").getD JsVal.undefined = JsVal.arr xs →
      sanitizeVocabularyItems xs = .ok out →
      ∃ fs2, analyzeClassicalDeepseekPost resText = .ok (JsVal.obj fs2) ∧
        lookupKV fs2 "vocabulary" = some (JsVal.arr out)) ∧
    (∀ t fs xs out, extractJsonObject (geminiText t) = JsVal.obj fs →
      (lookupKV fs "vocabulary").getD JsVal.undefined = JsVal.arr xs →
      sanitizeVocabularyItems xs = .ok out →
      analyzeGeminiPost t =
        .ok (JsVal.obj (setKV fs "vocabulary" (JsVal.arr out)))) ∧
    (∀ t fs, extractJsonObject (geminiText t) = JsVal.obj fs →
      (∀ ys, (lookupKV fs "vocabulary").getD JsVal.undefined ≠ JsVal.arr ys) →
      analyzeGeminiPost t = .ok (JsVal.obj fs)) := by
  refine ⟨?_, ?_, ?_, ?_⟩
  · intro resText fs hobj hf
    refine ⟨setKV (setKV fs "vocabulary" (JsVal.arr [])) "vocabulary"
      (JsVal.arr []), ?_, by rw [lookupKV_setKV]⟩
    simp only [analyzeClassicalDeepseekPost]
    rw [hobj]
    show (match (if truthy ((lookupKV fs "vocabulary").getD JsVal.undefined) then
        Except.ok (JsVal.obj fs)
      else jsSetFieldE (JsVal.obj fs) "vocabulary" (JsVal.arr [])) with
      | .error e => Except.error e
      | .ok result1 =>
        match jsPropE result1 "vocabulary" with
        | .error e => Except.error e
        | .ok voc1 =>
          match voc1 with
          | .arr xs =>
            match sanitizeVocabularyItems xs with
            | .error e => Except.error e
            | .ok out => jsSetFieldE result1 "vocabulary" (JsVal.arr out)
          | _ => Except.ok result1) = _
    rw [hf]
    show (match jsPropE (JsVal.obj (setKV fs "vocabulary" (JsVal.arr [])))
        "vocabulary" with
      | .error e => Except.error e
      | .ok voc1 =>
        match voc1 with
        | .arr xs =>
          match sanitizeVocabularyItems xs with
          | .error e => Except.error e
          | .ok out =>
            jsSetFieldE (JsVal.obj (setKV fs "vocabulary" (JsVal.arr [])))
              "vocabulary" (JsVal.arr out)
        | _ => Except.ok (JsVal.obj (setKV fs "vocabulary" (JsVal.arr [])))) =
      _
    have h1 : jsPropE (JsVal.obj (setKV fs "vocabulary" (JsVal.arr [])))
        "vocabulary" = .ok (JsVal.arr []) := by
      show Except.ok ((lookupKV (setKV fs "vocabulary" (JsVal.arr []))
        "vocabulary").getD JsVal.undefined) = .ok (JsVal.arr [])
      rw [lookupKV_setKV]
      rfl
    rw [h1]
    rfl
  · intro resText fs xs out hobj hv hs
    refine ⟨setKV fs "vocabulary" (JsVal.arr out), ?_,
      by rw [lookupKV_setKV]⟩
    simp only [analyzeClassicalDeepseekPost]
    rw [hobj]
    show (match (if truthy ((lookupKV fs "vocabulary").getD JsVal.undefined) then
        Except.ok (JsVal.obj fs)
      else jsSetFieldE (JsVal.obj fs) "vocabulary" (JsVal.arr [])) with
      | .error e => Except.error e
      | .ok result1 =>
        match jsPropE result1 "vocabulary" with
        | .error e => Except.error e
        | .ok voc1 =>
          match voc1 with
          | .arr xs =>
            match sanitizeVocabularyItems xs with
            | .error e => Except.error e
            | .ok out => jsSetFieldE result1 "vocabulary" (JsVal.arr out)
          | _ => Except.ok result1) = _
    rw [hv]
    show (match jsPropE (JsVal.obj fs) "vocabulary" with
      | .error e => Except.error e
      | .ok voc1 =>
        match voc1 with
        | .arr xs =>
          match sanitizeVocabularyItems xs with
          | .error e => Except.error e
          | .ok out => jsSetFieldE (JsVal.obj fs) "vocabulary" (JsVal.arr out)
        | _ => Except.ok (JsVal.obj fs)) = _
    have h1 : jsPropE (JsVal.obj fs) "vocabulary" = .ok (JsVal.arr xs) := by
      show Except.ok ((lookupKV fs "vocabulary").getD JsVal.undefined) =
        .ok (JsVal.arr xs)
      rw [hv]
    rw [h1]
    show (match sanitizeVocabularyItems xs with
      | .error e => Except.error e
      | .ok out => jsSetFieldE (JsVal.obj fs) "vocabulary" (JsVal.arr out)) =
      _
    rw [hs]
    rfl
  · intro t fs xs out hobj hv hs
    simp only [analyzeGeminiPost]
    rw [hobj]
    show (match (lookupKV fs "vocabulary").getD JsVal.undefined with
      | JsVal.arr xs =>
        match sanitizeVocabularyItems xs with
        | .error e => Except.error e
        | .ok out => jsSetFieldE (JsVal.obj fs) "vocabulary" (JsVal.arr out)
      | _ => Except.ok (JsVal.obj fs)) = _
    rw [hv]
    show (match sanitizeVocabularyItems xs with
      | .error e => Except.error e
      | .ok out => jsSetFieldE (JsVal.obj fs) "vocabulary" (JsVal.arr out)) =
      _
    rw [hs]
    rfl
  · intro t fs hobj hn
    simp only [analyzeGeminiPost]
    rw [hobj]
    show (match (lookupKV fs "vocabulary").getD JsVal.undefined with
      | JsVal.arr xs =>
        match sanitizeVocabularyItems xs with
        | .error e => Except.error e
        | .ok out => jsSetFieldE (JsVal.obj fs) "vocabulary" (JsVal.arr out)
      | _ => Except.ok (JsVal.obj fs)) = _
    cases hvoc : (lookupKV fs "vocabulary").getD JsVal.undefined with
    | arr ys => exact absurd hvoc (hn ys)
    | undefined => rfl
    | null => rfl
    | bool b => rfl
    | num l => rfl
    | str s => rfl
    | obj fs2 => rfl

/-- C7 witness: the four amended behaviours at concrete responses — deepseek
defaulting of an absent vocabulary, deepseek sanitization of an array
vocabulary, gemini sanitization of an array vocabulary, and gemini leaving an
absent vocabulary untouched. -/
theorem claim_C7_vocabulary_amended_witness :
    (∃ fs2, analyzeClassicalDeepseekPost "\x7b\"translation\":\"t\"\x7d" =
      .ok (JsVal.obj fs2) ∧
      lookupKV fs2 "vocabulary" = some (JsVal.arr [])) ∧
    (∃ fs2, analyzeClassicalDeepseekPost "\x7b\"vocabulary\":[]\x7d" =
      .ok (JsVal.obj fs2) ∧
      lookupKV fs2 "vocabulary" = some (JsVal.arr [])) ∧
    analyzeGeminiPost (some "\x7b\"vocabulary\":[]\x7d") =
      .ok (JsVal.obj (setKV [("vocabulary", JsVal.arr [])] "vocabulary"
        (JsVal.arr []))) ∧
    analyzeGeminiPost (some "\x7b\"translation\":\"t\"\x7d") =
      .ok (JsVal.obj [("translation", JsVal.str "t")]) := by
  refine ⟨?_, ?_, ?_, ?_⟩
  · exact claim_C7_vocabulary_amended.1 _ [("translation", JsVal.str "t")]
      rfl rfl
  · exact claim_C7_vocabulary_amended.2.1 _ [("vocabulary", JsVal.arr [])]
      [] [] rfl rfl rfl
  · exact claim_C7_vocabulary_amended.2.2.1
      (some "\x7b\"vocabulary\":[]\x7d") [("vocabulary", JsVal.arr [])]
      [] [] rfl rfl rfl
  · exact claim_C7_vocabulary_amended.2.2.2
      (some "\x7b\"translation\":\"t\"\x7d")
      [("translation", JsVal.str "t")] rfl (fun ys h => JsVal.noConfusion h)

/-- C8 counterexample: the credential lookup is runtime-global-first, not
environment-first — with `window.DEEPSEEK_API_KEY = "W"` and
`process.env.DEEPSEEK_API_KEY = "E"` both set, the resolver returns `"W"`,
not the environment value `"E"`. -/
theorem claim_C8_counterexample :
    getApiKey ⟨JsVal.str "W", JsVal.str "E", JsVal.undefined, JsVal.undefined⟩
      .deepseek = .ok (JsVal.str "W") ∧
    getApiKey ⟨JsVal.str "W", JsVal.str "E", JsVal.undefined, JsVal.undefined⟩
      .deepseek ≠ .ok (JsVal.str "E") := by
  refine ⟨rfl, ?_⟩
  intro h
  have h1 : (Except.ok (JsVal.str "W") : Except JsErr JsVal) =
    .ok (JsVal.str "E") := h
  injection h1 with h2
  injection h2 with h3
  exact absurd h3 (by decide)

theorem jsOr_truthy {a : JsVal} (b : JsVal) (h : truthy a = true) :
    jsOr a b = a := by
  unfold jsOr
  rw [if_pos h]

theorem jsOr_falsy {a : JsVal} (b : JsVal) (h : truthy a = false) :
    jsOr a b = b := by
  unfold jsOr
  rw [if_neg (by simp [h])]

/-- C8 amended: the resolver checks the runtime-injected global first and
the environment variable second; for deepseek it fails synchronously with
the missing-key error — before any fetch is attempted — when both are falsy,
while for gemini the same double absence is not an error and the (possibly
undefined) value is passed through. -/
theorem claim_C8_credential_amended :
    (∀ env : JsEnv, truthy env.windowDeepseekKey = true →
      getApiKey env .deepseek = .ok env.windowDeepseekKey) ∧
    (∀ env : JsEnv, truthy env.windowDeepseekKey = false →
      truthy env.envDeepseekKey = true →
      getApiKey env .deepseek = .ok env.envDeepseekKey) ∧
    (∀ (env : JsEnv) (fetch : FetchOutcome),
      truthy env.windowDeepseekKey = false →
      truthy env.envDeepseekKey = false →
      getApiKey env .deepseek =
        .error (.jsError "DeepSeek API Key is missing.") ∧
      (callDeepSeek env fetch).1 = false) ∧
    (∀ env : JsEnv, truthy env.windowApiKey = true →
      getApiKey env .gemini = .ok env.windowApiKey) ∧
    (∀ env : JsEnv, truthy env.windowApiKey = false →
      getApiKey env .gemini = .ok env.envApiKey) := by
  refine ⟨?_, ?_, ?_, ?_, ?_⟩
  · intro env h
    show (if truthy (jsOr env.windowDeepseekKey env.envDeepseekKey) = true
      then Except.ok (jsOr env.windowDeepseekKey env.envDeepseekKey)
      else (Except.error (JsErr.jsError "DeepSeek API Key is missing.") :
        Except JsErr JsVal)) =
      Except.ok env.windowDeepseekKey
    rw [jsOr_truthy _ h, if_pos h]
  · intro env h1 h2
    show (if truthy (jsOr env.windowDeepseekKey env.envDeepseekKey) = true
      then Except.ok (jsOr env.windowDeepseekKey env.envDeepseekKey)
      else (Except.error (JsErr.jsError "DeepSeek API Key is missing.") :
        Except JsErr JsVal)) =
      Except.ok env.envDeepseekKey
    rw [jsOr_falsy _ h1, if_pos h2]
  · intro env fetch h1 h2
    have hkey : getApiKey env .deepseek =
        .error (.jsError "DeepSeek API Key is missing.") := by
      show (if truthy (jsOr env.windowDeepseekKey env.envDeepseekKey) = true
        then Except.ok (jsOr env.windowDeepseekKey env.envDeepseekKey)
        else (Except.error (JsErr.jsError "DeepSeek API Key is missing.") :
          Except JsErr JsVal)) =
        Except.error (JsErr.jsError "DeepSeek API Key is missing.")
      rw [jsOr_falsy _ h1, if_neg (by simp [h2])]
    refine ⟨hkey, ?_⟩
    unfold callDeepSeek
    rw [hkey]
  · intro env h
    show Except.ok (jsOr env.windowApiKey env.envApiKey) =
      Except.ok env.windowApiKey
    rw [jsOr_truthy _ h]
  · intro env h
    show Except.ok (jsOr env.windowApiKey env.envApiKey) =
      Except.ok env.envApiKey
    rw [jsOr_falsy _ h]

/-- C8 witness: the amended lookup behaviour at concrete environments. -/
theorem claim_C8_credential_amended_witness :
    getApiKey ⟨JsVal.str "W", JsVal.str "E", JsVal.undefined, JsVal.undefined⟩
      .deepseek = .ok (JsVal.str "W") ∧
    getApiKey ⟨JsVal.undefined, JsVal.str "E", JsVal.undefined, JsVal.undefined⟩
      .deepseek = .ok (JsVal.str "E") ∧
    (getApiKey ⟨JsVal.undefined, JsVal.undefined, JsVal.undefined, JsVal.undefined⟩
      .deepseek = .error (.jsError "DeepSeek API Key is missing.") ∧
      (callDeepSeek ⟨JsVal.undefined, JsVal.undefined, JsVal.undefined, JsVal.undefined⟩
        ⟨true, 200, JsVal.null⟩).1 = false) ∧
    getApiKey ⟨JsVal.undefined, JsVal.undefined, JsVal.str "G", JsVal.undefined⟩
      .gemini = .ok (JsVal.str "G") ∧
    getApiKey ⟨JsVal.undefined, JsVal.undefined, JsVal.undefined, JsVal.undefined⟩
      .gemini = .ok JsVal.undefined :=
  ⟨claim_C8_credential_amended.1 _ rfl,
   claim_C8_credential_amended.2.1 _ rfl rfl,
   claim_C8_credential_amended.2.2.1 _ ⟨true, 200, JsVal.null⟩ rfl rfl,
   claim_C8_credential_amended.2.2.2.1 _ rfl,
   claim_C8_credential_amended.2.2.2.2 _ rfl⟩

/-- C10: when a deepseek `sendMessage` turn fails — missing credential or a
non-ok HTTP response — the error propagates to the caller and the session
history gains exactly the already-appended user message: no assistant entry
is added for the failed turn. -/
theorem claim_C10_chat_failure_history :
    ∀ (env : JsEnv) (fetch : FetchOutcome)
      (hist : List (String × JsVal)) (msg : String),
      ((∃ e, getApiKey env .deepseek = .error e) ∨ fetch.ok = false) →
      (sendMessageDS env fetch hist msg).1 =
        hist ++ [("user", JsVal.str msg)] ∧
      ∃ e, (sendMessageDS env fetch hist msg).2 = .error e := by
  intro env fetch hist msg h
  unfold sendMessageDS
  cases hkey : getApiKey env .deepseek with
  | error e => exact ⟨rfl, e, rfl⟩
  | ok k =>
    have hferr : fetch.ok = false := by
      rcases h with ⟨e, he⟩ | hf
      · rw [hkey] at he
        cases he
      · exact hf
    rw [hferr]
    exact ⟨rfl, _, rfl⟩

/-- C10 witness: a failed turn with no credential configured leaves only the
user message in the history and surfaces the error. -/
theorem claim_C10_chat_failure_history_witness :
    (sendMessageDS ⟨JsVal.undefined, JsVal.undefined, JsVal.undefined, JsVal.undefined⟩
      ⟨true, 200, JsVal.null⟩ [] "hi").1 =
      [] ++ [("user", JsVal.str "hi")] ∧
    ∃ e, (sendMessageDS ⟨JsVal.undefined, JsVal.undefined, JsVal.undefined, JsVal.undefined⟩
      ⟨true, 200, JsVal.null⟩ [] "hi").2 = .error e :=
  claim_C10_chat_failure_history _ _ [] "hi"
    (Or.inl ⟨.jsError "DeepSeek API Key is missing.", rfl⟩)
